import Mathlib

set_option linter.unusedVariables false

/-!
# Formal model of CodingIntroJS v7 (src/codingintro.js)

A shallow embedding of the tour library in `src/src/codingintro.js`.

Two parts are modelled:

* the placement engine `positionTooltip` (source lines 569-678), embedded as a
  pure function on exact rationals (the JS source computes with IEEE doubles;
  every quantity in the claims is a small integer or half-integer, on which the
  two arithmetics agree);
* the tour controller (`start`, `goTo`, `processStep`, `exit`, `finish`,
  `setTheme`, the debounced scroll handler), embedded as state-passing
  functions over a `TourState` record that also emit a trace of externally
  visible actions (`Event`): DOM mutations, diagnostics and lifecycle
  callbacks.  Lifecycle callback events mark the points where the source would
  invoke the corresponding user callback when one is configured.
-/

namespace CodingIntroJS

/-! ## Placement engine (`positionTooltip`, lines 569-678) -/

/-- An axis-aligned rectangle in surface coordinates, as produced by
`getBoundingClientRect` (`left`/`top`/`width`/`height`; the DOMRect fields
`right` and `bottom` are derived below). -/
structure Rect where
  left : ℚ
  top : ℚ
  width : ℚ
  height : ℚ
deriving DecidableEq

/-- DOMRect `right` field: `left + width`. -/
def Rect.right (r : Rect) : ℚ := r.left + r.width

/-- DOMRect `bottom` field: `top + height`. -/
def Rect.bottom (r : Rect) : ℚ := r.top + r.height

/-- One entry of the `positions` array built at lines 581-610: a candidate
placement with its name, coordinates and score. -/
structure Candidate where
  name : String
  top : ℚ
  left : ℚ
  score : ℚ
deriving DecidableEq

instance : Inhabited Candidate := ⟨⟨"", 0, 0, 0⟩⟩

/-- The result of `positionTooltip`: the chosen side and the final (clamped)
`top`/`left` written to the tooltip style. -/
structure Placement where
  name : String
  top : ℚ
  left : ℚ
deriving DecidableEq

/-- The `bottom` candidate (lines 583-588). -/
def bottomCandidate (r : Rect) (tw th vpW vpH gap : ℚ) : Candidate :=
  { name := "bottom"
    top := r.bottom + gap
    left := r.left + r.width / 2 - tw / 2
    score := vpH - (r.bottom + gap + th) }

/-- The `top` candidate (lines 590-595). -/
def topCandidate (r : Rect) (tw th vpW vpH gap : ℚ) : Candidate :=
  { name := "top"
    top := r.top - th - gap
    left := r.left + r.width / 2 - tw / 2
    score := r.top - th - gap }

/-- The `right` candidate (lines 597-602). -/
def rightCandidate (r : Rect) (tw th vpW vpH gap : ℚ) : Candidate :=
  { name := "right"
    top := r.top + r.height / 2 - th / 2
    left := r.right + gap
    score := vpW - (r.right + gap + tw) }

/-- The `left` candidate (lines 604-609). -/
def leftCandidate (r : Rect) (tw th vpW vpH gap : ℚ) : Candidate :=
  { name := "left"
    top := r.top + r.height / 2 - th / 2
    left := r.left - tw - gap
    score := r.left - tw - gap }

/-- The `positions` array in evaluation order bottom, top, right, left
(lines 581-610). -/
def candidates (r : Rect) (tw th vpW vpH gap : ℚ) : List Candidate :=
  [bottomCandidate r tw th vpW vpH gap, topCandidate r tw th vpW vpH gap,
    rightCandidate r tw th vpW vpH gap, leftCandidate r tw th vpW vpH gap]

/-- `fitsX` (line 634): the candidate lies within the horizontal safe area. -/
def fitsXB (safe vpW tw : ℚ) (c : Candidate) : Bool :=
  decide (safe ≤ c.left) && decide (c.left + tw ≤ vpW - safe)

/-- `fitsY` (line 635): the candidate lies within the vertical safe area. -/
def fitsYB (safe vpH th : ℚ) (c : Candidate) : Bool :=
  decide (safe ≤ c.top) && decide (c.top + th ≤ vpH - safe)

/-- `overlapsTarget` (lines 626-631): the candidate tooltip rectangle
(`right = left + tw`, `bottom = top + th`, lines 618-623) intersects the
target rectangle. -/
def overlapsB (r : Rect) (tw th : ℚ) (c : Candidate) : Bool :=
  !(decide (c.left + tw < r.left) || decide (r.right < c.left) ||
    decide (c.top + th < r.top) || decide (r.bottom < c.top))

/-- The admission test of line 637: `fitsX && fitsY && !overlapsTarget`. -/
def qualifiesB (r : Rect) (tw th safe vpW vpH : ℚ) (c : Candidate) : Bool :=
  fitsXB safe vpW tw c && fitsYB safe vpH th c && !overlapsB r tw th c

/-- The selection loop of lines 612-645 (and, with the trivial predicate, the
fallback loop of lines 652-660): fold over the candidates keeping the
qualifying one with the strictly highest score seen so far.  The `none`
accumulator plays the role of `bestPosition = null` with
`maxScore = -Infinity`; a strict comparison (`currentScore > maxScore`,
line 640) means earlier candidates win ties. -/
def pickLoop (q : Candidate → Bool) : Option Candidate → List Candidate → Option Candidate
  | best, [] => best
  | best, c :: cs =>
    pickLoop q
      (if q c then
        match best with
        | none => some c
        | some b => if b.score < c.score then some c else some b
      else best) cs

/-- Specification-side recursive form of the selection loop: the first
candidate in list order that satisfies `q` and attains the maximal score among
the qualifying candidates.  Proved equal to `pickLoop q none` below. -/
def firstBest (q : Candidate → Bool) : List Candidate → Option Candidate
  | [] => none
  | c :: cs =>
    if q c then
      match firstBest q cs with
      | none => some c
      | some b => if c.score < b.score then some b else some c
    else firstBest q cs

/-- `positionTooltip` (lines 569-678) with the gap as an explicit parameter
(the source fixes `const gap = 12` at line 577; `positionTooltip` below
instantiates it).  Selection: first try the admission loop; if it found
nothing, fall back to the highest-score candidate regardless of fit/overlap
(lines 650-662; `fallbackPosition || positions[0]` is modelled by `getD` of the
head, and is never the default since the list is non-empty).  Finally clamp
both coordinates into the safe area (lines 670-671). -/
def positionTooltipGen (r : Rect) (tw th safe vpW vpH gap : ℚ) : Placement :=
  let positions := candidates r tw th vpW vpH gap
  let best :=
    match pickLoop (qualifiesB r tw th safe vpW vpH) none positions with
    | some b => b
    | none => (pickLoop (fun _ => true) none positions).getD (positions.headD default)
  { name := best.name
    top := max safe (min best.top (vpH - th - safe))
    left := max safe (min best.left (vpW - tw - safe)) }

/-- `positionTooltip` as in the source, with the hard-coded `gap = 12`
(line 577).  `tw`/`th` are the cached tooltip dimensions, `safe` is
`options.safeAreaPadding`, `vpW`/`vpH` are `window.innerWidth/innerHeight`. -/
def positionTooltip (r : Rect) (tw th safe vpW vpH : ℚ) : Placement :=
  positionTooltipGen r tw th safe vpW vpH 12

end CodingIntroJS

namespace CodingIntroJS

/-! ## Tour controller model

The controller (`CodingIntroJS` class) is embedded as state-passing functions
on `TourState`.  DOM mutations, console diagnostics and lifecycle-callback
invocation points are recorded as a list of `Event`s in execution order.
The DOM itself is abstracted: `Env.resolve` says whether
`document.querySelector` finds an element for a selector, and `Env.condHolds`
gives the value of a step's `condition` predicate on that element. -/

/-- One step descriptor, as supplied to the constructor.  `className` follows
the JS truthiness convention of the source (`if (step.className)`,
`step.className || ''`): the empty string means "no class".  `hasCondition`
models `typeof step.condition === 'function'`. -/
structure Step where
  isWelcome : Bool
  selector : String
  hasCondition : Bool
  className : String
deriving DecidableEq

instance : Inhabited Step := ⟨⟨false, "", false, ""⟩⟩

/-- The host page, as the controller observes it. -/
structure Env where
  resolve : String → Bool
  condHolds : String → Bool

/-- The mutable instance state of the `CodingIntroJS` class that the claims
are about: `isActive`, `currentStep` (constructor initialises it to `-1`,
line 23), the step list, `previousStepClassName`, whether
`this.elements.container` is non-null (`hasContainer`), `options.defaultTheme`
(`theme`) and the container's `data-theme` attribute (`containerTheme`). -/
structure TourState where
  isActive : Bool
  currentStep : ℤ
  steps : List Step
  previousStepClassName : String
  hasContainer : Bool
  theme : String
  containerTheme : Option String
deriving DecidableEq

/-- Externally visible actions, in execution order. -/
inductive Event where
  | onStart : Event
  | onFinish : Event
  | onExit : Event
  | onBeforeStep : ℤ → Event
  | onAfterStep : ℤ → Event
  | domCreated : Event
  | tooltipMeasured : Event
  | listenersBound : Event
  | bodyClassAdded : Event
  | containerShown : Event
  | containerHidden : Event
  | bodyClassRemoved : Event
  | scheduleTeardown : Event
  | tooltipHidden : Event
  | highlighterHidden : Event
  | settleWait : Event
  | classRemoved : String → Event
  | classAdded : String → Event
  | warnSkip : ℤ → String → Event
  | overlayShown : Event
  | overlayHidden : Event
  | scrollIntoView : String → Event
  | scrollWait : Event
  | contentSwap : ℤ → Event
  | positionUpdate : ℤ → Event
  | tooltipShown : ℤ → Event
  | warnAlreadyRunning : Event
  | warnThemeBeforeStart : Event
deriving DecidableEq

/-- `exit` (lines 690-713): a no-op while inactive; otherwise clear the active
flag, hide the container, drop the body class, schedule the delayed teardown
and fire `onExit`.  `currentStep` is not touched. -/
def exitModel (st : TourState) : TourState × List Event :=
  if st.isActive then
    ({ st with isActive := false },
      [Event.containerHidden, Event.bodyClassRemoved, Event.scheduleTeardown, Event.onExit])
  else (st, [])

/-- `finish` (lines 718-722): a no-op while inactive; otherwise fire
`onFinish` and then `exit`. -/
def finishModel (st : TourState) : TourState × List Event :=
  if st.isActive then
    let e := exitModel st
    (e.1, Event.onFinish :: e.2)
  else (st, [])

/-- `showWelcomeStep` (lines 429-445): show the overlay, swap the tooltip
content, add the step's class if any, record it as the previous class, and
show the tooltip.  (The fixed `is-welcome` class toggle is a presentation
detail and is not recorded.) -/
def showWelcomeModel (st : TourState) (step : Step) : TourState × List Event :=
  ({ st with previousStepClassName := step.className },
    [Event.overlayShown, Event.contentSwap st.currentStep] ++
      (if step.className = "" then [] else [Event.classAdded step.className]) ++
      [Event.tooltipShown st.currentStep])

/-- `showSelectorStep` (lines 447-485) for a resolved target: scroll it into
view, await the scroll-settle poll (the poll performs no mutations, so it is
recorded as the single suspension marker `scrollWait`; its loop is modelled
separately by `scrollSettleChecks`), then hide the overlay, swap the tooltip
content, add the step's class, compute/apply positions and show the tooltip.
Note that after the wait resumes there is no `isActive` check before the
mutations. -/
def showSelectorStepModel (st : TourState) (step : Step) : TourState × List Event :=
  ({ st with previousStepClassName := step.className },
    [Event.scrollIntoView step.selector, Event.scrollWait, Event.overlayHidden,
      Event.contentSwap st.currentStep] ++
      (if step.className = "" then [] else [Event.classAdded step.className]) ++
      [Event.positionUpdate st.currentStep, Event.tooltipShown st.currentStep])

/-- The skip test of line 410:
`!targetElement || (typeof step.condition === 'function' && !step.condition(targetElement))`. -/
def resolveFails (env : Env) (step : Step) : Bool :=
  !env.resolve step.selector || (step.hasCondition && !env.condHolds step.selector)

/-- `processStep` (lines 388-427), with explicit fuel for the structural
recursion of the skip path (`return this.processStep(stepIndex + 1)`,
line 419).  The fuel never runs out when it starts at
`steps.length + 1` (the index grows strictly towards `steps.length`, where
the bounds check terminates); `processStepAux_fuel` below makes this precise.
Per call: the entry guard (line 389) finishes the tour when inactive or out
of bounds; otherwise fire `onBeforeStep`, hide tooltip and highlighter, await
the settle delay (line 401, `settleWait`), drop the previous step class, set
`currentStep`, and dispatch on welcome / skip / anchored show.  After the
settle delay there is no new `isActive` check. -/
def processStepAux (env : Env) : ℕ → TourState → ℤ → TourState × List Event
  | 0, st, _ => finishModel st
  | fuel + 1, st, stepIndex =>
    if st.isActive = false ∨ stepIndex < 0 ∨ (st.steps.length : ℤ) ≤ stepIndex then
      finishModel st
    else
      let step := st.steps.getD stepIndex.toNat default
      let pre := [Event.onBeforeStep stepIndex, Event.tooltipHidden, Event.highlighterHidden,
          Event.settleWait] ++
        (if st.previousStepClassName = "" then []
          else [Event.classRemoved st.previousStepClassName])
      let st1 := { st with currentStep := stepIndex }
      if step.isWelcome then
        let r := showWelcomeModel st1 step
        (r.1, pre ++ r.2 ++ [Event.onAfterStep stepIndex])
      else if resolveFails env step then
        let r := processStepAux env fuel st1 (stepIndex + 1)
        (r.1, pre ++ [Event.warnSkip stepIndex step.selector] ++ r.2)
      else
        let r := showSelectorStepModel st1 step
        (r.1, pre ++ r.2 ++ [Event.onAfterStep stepIndex])

/-- `processStep` with enough fuel for every reachable recursion depth. -/
def processStep (env : Env) (st : TourState) (stepIndex : ℤ) : TourState × List Event :=
  processStepAux env (st.steps.length + 1) st stepIndex

/-- `goTo` (lines 94-97): ignored while inactive, otherwise `processStep`. -/
def goToModel (env : Env) (st : TourState) (stepIndex : ℤ) : TourState × List Event :=
  if st.isActive then processStep env st stepIndex else (st, [])

/-- `next` (lines 680-682). -/
def nextModel (env : Env) (st : TourState) : TourState × List Event :=
  goToModel env st (st.currentStep + 1)

/-- `prev` (lines 683-685). -/
def prevModel (env : Env) (st : TourState) : TourState × List Event :=
  goToModel env st (st.currentStep - 1)

/-- `start` (lines 67-88): warn and change nothing while already active;
otherwise set the active flag, build the DOM (container `data-theme` set to
the default theme, line 129), measure the tooltip, bind listeners, add the
body class, show the container, fire `onStart` and go to step 0. -/
def startModel (env : Env) (st : TourState) : TourState × List Event :=
  if st.isActive then (st, [Event.warnAlreadyRunning])
  else
    let st1 := { st with isActive := true, hasContainer := true, containerTheme := some st.theme }
    let r := processStep env st1 0
    (r.1, [Event.domCreated, Event.tooltipMeasured, Event.listenersBound, Event.bodyClassAdded,
      Event.containerShown, Event.onStart] ++ r.2)

/-- `setTheme` (lines 103-116): with a container, set its `data-theme` and
the default-theme option; without one (before `start`), warn and change
nothing. -/
def setThemeModel (st : TourState) (themeName : String) : TourState × List Event :=
  if st.hasContainer then
    ({ st with containerTheme := some themeName, theme := themeName }, [])
  else (st, [Event.warnThemeBeforeStart])

/-- JS array indexing `this.steps[i]`: `none` models `undefined`. -/
def stepAt (steps : List Step) (i : ℤ) : Option Step :=
  if 0 ≤ i ∧ i < (steps.length : ℤ) then some (steps.getD i.toNat default) else none

/-- A thrown JS exception. -/
inductive JsFault where
  | typeError : JsFault
deriving DecidableEq

/-- The debounced scroll-handler body (lines 349-356):
`if (this.isActive && !this.steps[this.currentStep].isWelcome) this.updatePositions()`.
When `currentStep` indexes outside the step list, `this.steps[this.currentStep]`
is `undefined` and reading `.isWelcome` throws a `TypeError`. -/
def scrollHandlerFire (st : TourState) : Except JsFault (List Event) :=
  if st.isActive then
    match stepAt st.steps st.currentStep with
    | none => Except.error JsFault.typeError
    | some step =>
      if step.isWelcome then Except.ok [] else Except.ok [Event.positionUpdate st.currentStep]
  else Except.ok []

/-- The scroll-settle polling loop of lines 457-475, for a fixed value of the
active flag during the wait.  Each poll (`check`) first tests the active flag
and resolves immediately when the tour was deactivated; otherwise it reads
`window.scrollY` (the next element of `samples`), updates the
consecutive-small-movement counter, and resolves once more than three
consecutive reads moved less than 2 pixels.  Returns the number of samples
read before resolving, or `none` when the observation list is exhausted while
still polling. -/
def scrollSettleChecks (active : Bool) : ℕ → ℤ → List ℤ → Option ℕ
  | _, _, [] => if active then none else some 0
  | consecutive, lastPos, s :: rest =>
    if active then
      let consecutive2 := if (s - lastPos).natAbs < 2 then consecutive + 1 else 0
      if 3 < consecutive2 then some 1
      else
        match scrollSettleChecks active consecutive2 s rest with
        | none => none
        | some n => some (n + 1)
    else some 0

/-- The two suspension points of a step transition at which `exit` can run
while `processStep` is suspended: the settle delay of line 401 and the
scroll-settle wait of lines 457-475. -/
inductive SuspPoint where
  | settleDelay : SuspPoint
  | scrollWait : SuspPoint
deriving DecidableEq

/-- `showSelectorStep` (lines 447-485) when `exit()` runs during the
scroll-settle wait: the wait's poll sees the cleared active flag and resolves
immediately (line 461-464), after which the function resumes and still
performs all its visual mutations — there is no `isActive` check after the
`await`. -/
def showSelectorStepWithExit (st : TourState) (step : Step) : TourState × List Event :=
  let e := exitModel st
  ({ e.1 with previousStepClassName := step.className },
    [Event.scrollIntoView step.selector] ++ e.2 ++
      [Event.scrollWait, Event.overlayHidden, Event.contentSwap st.currentStep] ++
      (if step.className = "" then [] else [Event.classAdded step.className]) ++
      [Event.positionUpdate st.currentStep, Event.tooltipShown st.currentStep])

/-- One `processStep` transition during which `exit()` is invoked at the given
suspension point.  Mirrors `processStepAux` (lines 388-427): the entry guard
runs before any suspension; at `settleDelay` the exit is interleaved between
the settle await (line 401) and the resumption at line 403; at `scrollWait`
it is interleaved inside `showSelectorStep`.  The skip path re-enters the
plain `processStep`, whose entry guard then sees the cleared flag. -/
def processStepExitAt (env : Env) (p : SuspPoint) (st : TourState) (stepIndex : ℤ) :
    TourState × List Event :=
  if st.isActive = false ∨ stepIndex < 0 ∨ (st.steps.length : ℤ) ≤ stepIndex then
    finishModel st
  else
    let pre := [Event.onBeforeStep stepIndex, Event.tooltipHidden, Event.highlighterHidden,
      Event.settleWait]
    let e := if p = SuspPoint.settleDelay then exitModel st else (st, [])
    let stA := e.1
    let post := if stA.previousStepClassName = "" then []
      else [Event.classRemoved stA.previousStepClassName]
    let step := stA.steps.getD stepIndex.toNat default
    let st1 := { stA with currentStep := stepIndex }
    if step.isWelcome then
      let r := showWelcomeModel st1 step
      (r.1, pre ++ e.2 ++ post ++ r.2 ++ [Event.onAfterStep stepIndex])
    else if resolveFails env step then
      let r := processStep env st1 (stepIndex + 1)
      (r.1, pre ++ e.2 ++ post ++ [Event.warnSkip stepIndex step.selector] ++ r.2)
    else
      let r := if p = SuspPoint.scrollWait then showSelectorStepWithExit st1 step
        else showSelectorStepModel st1 step
      (r.1, pre ++ e.2 ++ post ++ r.2 ++ [Event.onAfterStep stepIndex])

/-- The events recorded after the first `onExit` in a trace. -/
def afterExit (evs : List Event) : List Event :=
  (evs.dropWhile (fun e => decide (e ≠ Event.onExit))).drop 1

/-- The indices whose tooltip was revealed, in order. -/
def shownSteps (evs : List Event) : List ℤ :=
  evs.filterMap (fun e => match e with | Event.tooltipShown i => some i | _ => none)

/-- The skip diagnostics (index, selector) emitted, in order. -/
def skipWarnings (evs : List Event) : List (ℤ × String) :=
  evs.filterMap (fun e => match e with | Event.warnSkip i s => some (i, s) | _ => none)

/-! ## Concrete fixtures used by witnesses and counterexamples -/

/-- A host page where every selector resolves and every condition holds. -/
def envAll : Env := ⟨fun _ => true, fun _ => true⟩

/-- A host page where every selector except `selM` resolves. -/
def envSkipM : Env := ⟨fun s => decide (s ≠ "selM"), fun _ => true⟩

/-- An anchored step on selector `selA`. -/
def stepA : Step := ⟨false, "selA", false, ""⟩

/-- An anchored step on selector `selM` (the missing one). -/
def stepM : Step := ⟨false, "selM", false, ""⟩

/-- An anchored step on selector `selB`. -/
def stepB : Step := ⟨false, "selB", false, ""⟩

/-- An active one-step tour currently showing step 0. -/
def stActive1 : TourState :=
  { isActive := true, currentStep := 0, steps := [stepA], previousStepClassName := "",
    hasContainer := true, theme := "dark", containerTheme := some "dark" }

/-- An active three-step tour, before its first step has been processed. -/
def stABM : TourState :=
  { isActive := true, currentStep := -1, steps := [stepA, stepM, stepB],
    previousStepClassName := "", hasContainer := true, theme := "dark",
    containerTheme := some "dark" }

/-- A never-started tour (no DOM container yet). -/
def stInactive : TourState :=
  { isActive := false, currentStep := -1, steps := [stepA], previousStepClassName := "",
    hasContainer := false, theme := "dark", containerTheme := none }

/-- An active tour whose first step has not been processed yet
(`currentStep` still holds the constructor's `-1`). -/
def stPreFirst : TourState :=
  { isActive := true, currentStep := -1, steps := [stepA], previousStepClassName := "",
    hasContainer := true, theme := "dark", containerTheme := some "dark" }

end CodingIntroJS

namespace CodingIntroJS

/-! ## Lemmas about the selection loop -/

theorem pickLoop_some (q : Candidate → Bool) (l : List Candidate) :
    ∀ a : Candidate,
      pickLoop q (some a) l =
        match firstBest q l with
        | none => some a
        | some b => if a.score < b.score then some b else some a := by
  induction l with
  | nil => intro a; simp [pickLoop, firstBest]
  | cons c cs ih =>
    intro a
    by_cases hq : q c
    · by_cases hsc : a.score < c.score
      · have h1 : pickLoop q (some a) (c :: cs) = pickLoop q (some c) cs := by
          simp [pickLoop, hq, hsc]
        rw [h1, ih c]
        cases hfb : firstBest q cs with
        | none => simp [firstBest, hq, hfb, hsc]
        | some b =>
          by_cases hcb : c.score < b.score
          · have hab : a.score < b.score := lt_trans hsc hcb
            simp [firstBest, hq, hfb, hcb, hab]
          · simp [firstBest, hq, hfb, hcb, hsc]
      · have h1 : pickLoop q (some a) (c :: cs) = pickLoop q (some a) cs := by
          simp [pickLoop, hq, hsc]
        rw [h1, ih a]
        cases hfb : firstBest q cs with
        | none => simp [firstBest, hq, hfb, hsc]
        | some b =>
          by_cases hcb : c.score < b.score
          · simp [firstBest, hq, hfb, hcb]
          · have hab : ¬a.score < b.score := by
              intro h
              exact hsc (lt_of_lt_of_le h (not_lt.mp hcb))
            simp [firstBest, hq, hfb, hcb, hsc, hab]
    · have h1 : pickLoop q (some a) (c :: cs) = pickLoop q (some a) cs := by
        simp [pickLoop, hq]
      rw [h1, ih a]
      simp [firstBest, hq]

theorem pickLoop_none_eq_firstBest (q : Candidate → Bool) :
    ∀ l : List Candidate, pickLoop q none l = firstBest q l := by
  intro l
  induction l with
  | nil => rfl
  | cons c cs ih =>
    by_cases hq : q c
    · have h1 : pickLoop q none (c :: cs) = pickLoop q (some c) cs := by
        simp [pickLoop, hq]
      rw [h1, pickLoop_some]
      cases hfb : firstBest q cs with
      | none => simp [firstBest, hq, hfb]
      | some b => by_cases hcb : c.score < b.score <;> simp [firstBest, hq, hfb, hcb]
    · have h1 : pickLoop q none (c :: cs) = pickLoop q none cs := by
        simp [pickLoop, hq]
      rw [h1, ih]
      simp [firstBest, hq]

theorem firstBest_mem (q : Candidate → Bool) :
    ∀ (l : List Candidate) (b : Candidate), firstBest q l = some b → b ∈ l ∧ q b = true := by
  intro l
  induction l with
  | nil => intro b h; simp [firstBest] at h
  | cons c cs ih =>
    intro b h
    by_cases hq : q c
    · cases hfb : firstBest q cs with
      | none =>
        simp [firstBest, hq, hfb] at h
        subst h
        exact ⟨List.mem_cons_self c cs, hq⟩
      | some b2 =>
        by_cases hcb : c.score < b2.score
        · simp [firstBest, hq, hfb, hcb] at h
          subst h
          obtain ⟨hmem, hqb⟩ := ih b2 hfb
          exact ⟨List.mem_cons_of_mem c hmem, hqb⟩
        · simp [firstBest, hq, hfb, hcb] at h
          subst h
          exact ⟨List.mem_cons_self c cs, hq⟩
    · simp only [firstBest, hq, if_false] at h
      obtain ⟨hmem, hqb⟩ := ih b h
      exact ⟨List.mem_cons_of_mem c hmem, hqb⟩

theorem firstBest_none_forall (q : Candidate → Bool) :
    ∀ l : List Candidate, firstBest q l = none → ∀ c ∈ l, q c = false := by
  intro l
  induction l with
  | nil => intro _ c hc; simp at hc
  | cons c cs ih =>
    intro h d hd
    by_cases hq : q c
    · exfalso
      cases hfb : firstBest q cs with
      | none => simp [firstBest, hq, hfb] at h
      | some b =>
        by_cases hcb : c.score < b.score <;> simp [firstBest, hq, hfb, hcb] at h
    · simp only [firstBest, hq, if_false] at h
      rcases List.mem_cons.mp hd with rfl | hd2
      · exact Bool.not_eq_true _ ▸ (by simpa using hq)
      · exact ih h d hd2

theorem firstBest_eq_none (q : Candidate → Bool) :
    ∀ l : List Candidate, (∀ c ∈ l, q c = false) → firstBest q l = none := by
  intro l
  induction l with
  | nil => intro _; rfl
  | cons c cs ih =>
    intro h
    have hq : q c = false := h c (List.mem_cons_self c cs)
    have hcs : firstBest q cs = none := ih fun d hd => h d (List.mem_cons_of_mem c hd)
    simp [firstBest, hq, hcs]

theorem firstBest_max (q : Candidate → Bool) :
    ∀ (l : List Candidate) (b : Candidate), firstBest q l = some b →
      ∀ c ∈ l, q c = true → c.score ≤ b.score := by
  intro l
  induction l with
  | nil => intro b _ c hc; simp at hc
  | cons c cs ih =>
    intro b h d hd hqd
    by_cases hq : q c
    · cases hfb : firstBest q cs with
      | none =>
        simp [firstBest, hq, hfb] at h
        subst h
        rcases List.mem_cons.mp hd with rfl | hd2
        · exact le_refl _
        · exact absurd hqd (by simp [firstBest_none_forall q cs hfb d hd2])
      | some b2 =>
        have hmax2 := ih b2 hfb
        by_cases hcb : c.score < b2.score
        · simp [firstBest, hq, hfb, hcb] at h
          subst h
          rcases List.mem_cons.mp hd with rfl | hd2
          · exact le_of_lt hcb
          · exact hmax2 d hd2 hqd
        · simp [firstBest, hq, hfb, hcb] at h
          subst h
          rcases List.mem_cons.mp hd with rfl | hd2
          · exact le_refl _
          · exact le_trans (hmax2 d hd2 hqd) (not_lt.mp hcb)
    · simp only [firstBest, hq, if_false] at h
      rcases List.mem_cons.mp hd with rfl | hd2
      · exact absurd hqd (by simp [hq])
      · exact ih b h d hd2 hqd

theorem firstBest_eq_of_first_max (q : Candidate → Bool) :
    ∀ (l : List Candidate) (i : ℕ), i < l.length →
      q (l.getD i default) = true →
      (∀ j, j < l.length → q (l.getD j default) = true →
        (l.getD j default).score ≤ (l.getD i default).score) →
      (∀ j, j < i → q (l.getD j default) = true →
        (l.getD j default).score < (l.getD i default).score) →
      firstBest q l = some (l.getD i default) := by
  intro l
  induction l with
  | nil => intro i hi; simp at hi
  | cons c cs ih =>
    intro i hi hq hmax hfirst
    match i with
    | 0 =>
      simp only [List.getD_cons_zero] at hq hmax ⊢
      cases hfb : firstBest q cs with
      | none => simp [firstBest, hq, hfb]
      | some b =>
        obtain ⟨hbmem, hbq⟩ := firstBest_mem q cs b hfb
        obtain ⟨j, hj, hbj⟩ := List.mem_iff_getElem.mp hbmem
        have hbd : cs.getD j default = b := by
          rw [List.getD_eq_getElem cs default hj, hbj]
        have hble : b.score ≤ c.score := by
          have := hmax (j + 1) (by simpa using Nat.succ_lt_succ hj)
          rw [List.getD_cons_succ, hbd] at this
          exact this hbq
        show firstBest q (c :: cs) = some c
        simp only [firstBest, hq, if_true, hfb]
        rw [if_neg (not_lt.mpr hble)]
    | Nat.succ k =>
      have hk : k < cs.length := by simpa using Nat.lt_of_succ_lt_succ hi
      simp only [List.getD_cons_succ] at hq ⊢
      have hfb : firstBest q cs = some (cs.getD k default) := by
        apply ih k hk hq
        · intro j hj hqj
          have := hmax (j + 1) (by simpa using Nat.succ_lt_succ hj)
          rw [List.getD_cons_succ, List.getD_cons_succ] at this
          exact this hqj
        · intro j hj hqj
          have := hfirst (j + 1) (Nat.succ_lt_succ hj)
          rw [List.getD_cons_succ, List.getD_cons_succ] at this
          exact this hqj
      by_cases hqc : q c
      · have hlt : c.score < (cs.getD k default).score := by
          have := hfirst 0 (Nat.succ_pos k)
          rw [List.getD_cons_zero] at this
          exact this hqc
        show firstBest q (c :: cs) = some (cs.getD k default)
        simp only [firstBest, hqc, if_true, hfb]
        rw [if_pos hlt]
      · show firstBest q (c :: cs) = some (cs.getD k default)
        simp only [firstBest, hqc, Bool.false_eq_true, if_false, hfb]

theorem firstBest_true_of_ne_nil :
    ∀ l : List Candidate, l ≠ [] → ∃ b, firstBest (fun _ => true) l = some b := by
  intro l
  cases l with
  | nil => intro h; exact absurd rfl h
  | cons c cs =>
    intro _
    cases hfb : firstBest (fun _ => true) cs with
    | none => exact ⟨c, by simp [firstBest, hfb]⟩
    | some b =>
      by_cases h : c.score < b.score
      · exact ⟨b, by simp [firstBest, hfb, h]⟩
      · exact ⟨c, by simp [firstBest, hfb, h]⟩

/-! ## Lemmas about the controller model -/

theorem processStepAux_oob (env : Env) (fuel : ℕ) (st : TourState) (i : ℤ)
    (h : st.steps.length ≤ i.toNat ∨ i < 0) :
    processStepAux env fuel st i = finishModel st := by
  cases fuel with
  | zero => rfl
  | succ f =>
    have hcond : st.isActive = false ∨ i < 0 ∨ (st.steps.length : ℤ) ≤ i := by
      rcases h with h | h
      · rcases Int.lt_or_le i 0 with h2 | h2
        · exact Or.inr (Or.inl h2)
        · right; right; omega
      · exact Or.inr (Or.inl h)
    simp only [processStepAux, if_pos hcond]

theorem processStepAux_fuel (env : Env) :
    ∀ (f g : ℕ) (st : TourState) (i : ℤ),
      st.steps.length ≤ i.toNat + f → st.steps.length ≤ i.toNat + g →
      processStepAux env f st i = processStepAux env g st i := by
  intro f
  induction f with
  | zero =>
    intro g st i hf hg
    have hoob : st.steps.length ≤ i.toNat ∨ i < 0 := Or.inl (by omega)
    rw [processStepAux_oob env 0 st i hoob, processStepAux_oob env g st i hoob]
  | succ f ih =>
    intro g st i hf hg
    cases g with
    | zero =>
      have hoob : st.steps.length ≤ i.toNat ∨ i < 0 := Or.inl (by omega)
      rw [processStepAux_oob env (f + 1) st i hoob, processStepAux_oob env 0 st i hoob]
    | succ g =>
      by_cases hcond : st.isActive = false ∨ i < 0 ∨ (st.steps.length : ℤ) ≤ i
      · simp only [processStepAux, if_pos hcond]
      · have hi0 : 0 ≤ i := by
          by_contra h
          exact hcond (Or.inr (Or.inl (by omega)))
        have hilen : i < (st.steps.length : ℤ) := by
          by_contra h
          exact hcond (Or.inr (Or.inr (by omega)))
        simp only [processStepAux, if_neg hcond]
        have hrec : processStepAux env f { st with currentStep := i } (i + 1) =
            processStepAux env g { st with currentStep := i } (i + 1) := by
          apply ih g
          · simp only []
            omega
          · simp only []
            omega
        by_cases hw : (st.steps.getD i.toNat default).isWelcome
        · simp only [hw, if_true]
        · by_cases hr : resolveFails env (st.steps.getD i.toNat default) = true
          · simp only [hw, Bool.false_eq_true, if_false, hr, if_true, hrec]
          · simp only [hw, Bool.false_eq_true, if_false, hr, if_true]

/-! ## Claims -/

/-- C1, counterexample: on the spec's example input — target region
{left 100, top 500, width 50, height 30}, panel 200×100, surface 800×600,
gap 12, safe-area padding 10 — `positionTooltip` does not choose the `bottom`
candidate with top=542 and left=75.  (The bottom candidate fails the vertical
fit test: 542 + 100 = 642 > 600 − 10, and the centred left would in any case
be 25, not 75.) -/
theorem c1_example_scenario_counterexample :
    ¬((positionTooltip ⟨100, 500, 50, 30⟩ 200 100 10 800 600).name = "bottom" ∧
      (positionTooltip ⟨100, 500, 50, 30⟩ 200 100 10 800 600).top = 542 ∧
      (positionTooltip ⟨100, 500, 50, 30⟩ 200 100 10 800 600).left = 75) := by
  norm_num [positionTooltip, positionTooltipGen, candidates, pickLoop, qualifiesB, fitsXB,
    fitsYB, overlapsB, bottomCandidate, topCandidate, rightCandidate, leftCandidate,
    Rect.right, Rect.bottom]

/-- C1, amended: on the example input the placement engine chooses the
`right` candidate and returns top=465 and left=162, with no clamping
triggered (the final coordinates equal the raw right-candidate
coordinates). -/
theorem c1_example_scenario_amended :
    positionTooltip ⟨100, 500, 50, 30⟩ 200 100 10 800 600 =
      { name := "right", top := 465, left := 162 } ∧
    (rightCandidate ⟨100, 500, 50, 30⟩ 200 100 800 600 12).top = 465 ∧
    (rightCandidate ⟨100, 500, 50, 30⟩ 200 100 800 600 12).left = 162 := by
  norm_num [positionTooltip, positionTooltipGen, candidates, pickLoop, qualifiesB, fitsXB,
    fitsYB, overlapsB, bottomCandidate, topCandidate, rightCandidate, leftCandidate,
    Rect.right, Rect.bottom]

/-- C2: deterministic tie-breaking.  For every target region, panel size and
surface bounds, whenever a candidate qualifies (fits and does not overlap),
has maximal score among the qualifying candidates, and strictly beats every
earlier qualifying candidate — i.e. it is the first, in the fixed evaluation
order bottom, top, right, left, among the tied-highest qualifiers —
`positionTooltip` selects it. -/
theorem c2_tie_break (r : Rect) (tw th safe vpW vpH : ℚ) (i : ℕ)
    (hi : i < (candidates r tw th vpW vpH 12).length)
    (hq : qualifiesB r tw th safe vpW vpH
      ((candidates r tw th vpW vpH 12).getD i default) = true)
    (hmax : ∀ j, j < (candidates r tw th vpW vpH 12).length →
      qualifiesB r tw th safe vpW vpH ((candidates r tw th vpW vpH 12).getD j default) = true →
      ((candidates r tw th vpW vpH 12).getD j default).score ≤
        ((candidates r tw th vpW vpH 12).getD i default).score)
    (hfirst : ∀ j, j < i →
      qualifiesB r tw th safe vpW vpH ((candidates r tw th vpW vpH 12).getD j default) = true →
      ((candidates r tw th vpW vpH 12).getD j default).score <
        ((candidates r tw th vpW vpH 12).getD i default).score) :
    (positionTooltip r tw th safe vpW vpH).name =
      ((candidates r tw th vpW vpH 12).getD i default).name := by
  have hfb := firstBest_eq_of_first_max (qualifiesB r tw th safe vpW vpH)
    (candidates r tw th vpW vpH 12) i hi hq hmax hfirst
  have hpl := pickLoop_none_eq_firstBest (qualifiesB r tw th safe vpW vpH)
    (candidates r tw th vpW vpH 12)
  simp only [positionTooltip, positionTooltipGen]
  rw [hpl, hfb]

/-- C2, witness: a symmetric scenario (surface 470×600, target
{left 300, top 285, width 50, height 30} vertically centred, panel 200×100,
safe-area 10) in which the `bottom` and `top` candidates both qualify with
identical scores; `bottom` is selected. -/
theorem c2_tie_break_witness :
    (qualifiesB ⟨300, 285, 50, 30⟩ 200 100 10 470 600
        ((candidates ⟨300, 285, 50, 30⟩ 200 100 470 600 12).getD 0 default) = true ∧
      qualifiesB ⟨300, 285, 50, 30⟩ 200 100 10 470 600
        ((candidates ⟨300, 285, 50, 30⟩ 200 100 470 600 12).getD 1 default) = true ∧
      ((candidates ⟨300, 285, 50, 30⟩ 200 100 470 600 12).getD 0 default).score =
        ((candidates ⟨300, 285, 50, 30⟩ 200 100 470 600 12).getD 1 default).score) ∧
    (positionTooltip ⟨300, 285, 50, 30⟩ 200 100 10 470 600).name = "bottom" := by
  constructor
  · norm_num [candidates, qualifiesB, fitsXB, fitsYB, overlapsB, bottomCandidate,
      topCandidate, rightCandidate, leftCandidate, Rect.right, Rect.bottom]
  · have h := c2_tie_break ⟨300, 285, 50, 30⟩ 200 100 10 470 600 0
      (by norm_num [candidates])
      (by norm_num [candidates, qualifiesB, fitsXB, fitsYB, overlapsB, bottomCandidate,
        topCandidate, rightCandidate, leftCandidate, Rect.right, Rect.bottom])
      (by
        intro j hj hqj
        have hj4 : j < 4 := by simpa [candidates] using hj
        interval_cases j <;>
          norm_num [candidates, qualifiesB, fitsXB, fitsYB, overlapsB, bottomCandidate,
            topCandidate, rightCandidate, leftCandidate, Rect.right, Rect.bottom] at hqj ⊢)
      (by intro j hj; exact absurd hj (Nat.not_lt_zero j))
    rw [h]
    norm_num [candidates, bottomCandidate]

/-- C3, counterexample: the claim asserts that whenever no candidate
qualifies, the final coordinates lie within
[safe, surfaceDim − panelDim − safe] on each axis.  With a 200×200 panel on a
100×100 surface (safe-area 10) and the target covering the whole surface, no
candidate qualifies, yet the upper bound 100 − 200 − 10 = −110 is below the
returned left coordinate (10): the two-sided interval is empty and the lower
clamp bound dominates. -/
theorem c3_fallback_counterexample :
    (∀ c ∈ candidates ⟨0, 0, 100, 100⟩ 200 200 100 100 12,
      qualifiesB ⟨0, 0, 100, 100⟩ 200 200 10 100 100 c = false) ∧
    ¬((positionTooltip ⟨0, 0, 100, 100⟩ 200 200 10 100 100).left ≤ 100 - 200 - 10) := by
  constructor
  · norm_num [candidates, qualifiesB, fitsXB, fitsYB, overlapsB, bottomCandidate,
      topCandidate, rightCandidate, leftCandidate, Rect.right, Rect.bottom]
  · norm_num [positionTooltip, positionTooltipGen, candidates, pickLoop, qualifiesB, fitsXB,
      fitsYB, overlapsB, bottomCandidate, topCandidate, rightCandidate, leftCandidate,
      Rect.right, Rect.bottom]

/-- C3, amended: for every input on which no candidate satisfies both the fit
and non-overlap predicates, `positionTooltip` returns (without any failure —
the model is a total function) the candidate with the highest score among all
four regardless of overlap or fit; and provided the safe-area clamp interval
is non-empty on each axis (safe ≤ surfaceDim − panelDim − safe), the final
coordinates are clamped within
[safeAreaPadding, surfaceDimension − panelDimension − safeAreaPadding]. -/
theorem c3_fallback_amended (r : Rect) (tw th safe vpW vpH : ℚ)
    (hnone : ∀ c ∈ candidates r tw th vpW vpH 12,
      qualifiesB r tw th safe vpW vpH c = false)
    (hx : safe ≤ vpW - tw - safe) (hy : safe ≤ vpH - th - safe) :
    ∃ b ∈ candidates r tw th vpW vpH 12,
      (∀ c ∈ candidates r tw th vpW vpH 12, c.score ≤ b.score) ∧
      (positionTooltip r tw th safe vpW vpH).name = b.name ∧
      safe ≤ (positionTooltip r tw th safe vpW vpH).left ∧
      (positionTooltip r tw th safe vpW vpH).left ≤ vpW - tw - safe ∧
      safe ≤ (positionTooltip r tw th safe vpW vpH).top ∧
      (positionTooltip r tw th safe vpW vpH).top ≤ vpH - th - safe := by
  have hpickq : pickLoop (qualifiesB r tw th safe vpW vpH) none
      (candidates r tw th vpW vpH 12) = none := by
    rw [pickLoop_none_eq_firstBest]
    exact firstBest_eq_none _ _ hnone
  obtain ⟨b, hb⟩ := firstBest_true_of_ne_nil (candidates r tw th vpW vpH 12)
    (by simp [candidates])
  have hpickall : pickLoop (fun _ => true) none (candidates r tw th vpW vpH 12) = some b := by
    rw [pickLoop_none_eq_firstBest]
    exact hb
  have hmem := (firstBest_mem _ _ _ hb).1
  have hmax : ∀ c ∈ candidates r tw th vpW vpH 12, c.score ≤ b.score := by
    intro c hc
    exact firstBest_max _ _ _ hb c hc rfl
  have hres : positionTooltip r tw th safe vpW vpH =
      { name := b.name, top := max safe (min b.top (vpH - th - safe)),
        left := max safe (min b.left (vpW - tw - safe)) } := by
    simp only [positionTooltip, positionTooltipGen]
    rw [hpickq, hpickall]
    simp
  refine ⟨b, hmem, hmax, ?_, ?_, ?_, ?_, ?_⟩
  · rw [hres]
  · rw [hres]
    exact le_max_left _ _
  · rw [hres]
    exact max_le hx (min_le_right _ _)
  · rw [hres]
    exact le_max_left _ _
  · rw [hres]
    exact max_le hy (min_le_right _ _)

/-- C3, witness: the target region equal to the full 800×600 surface
(panel 200×100, safe-area 10): no candidate qualifies, the clamp intervals
are non-empty, and the amended fallback guarantee holds. -/
theorem c3_fallback_amended_witness :
    (∀ c ∈ candidates ⟨0, 0, 800, 600⟩ 200 100 800 600 12,
      qualifiesB ⟨0, 0, 800, 600⟩ 200 100 10 800 600 c = false) ∧
    (10 : ℚ) ≤ 800 - 200 - 10 ∧ (10 : ℚ) ≤ 600 - 100 - 10 ∧
    ∃ b ∈ candidates ⟨0, 0, 800, 600⟩ 200 100 800 600 12,
      (∀ c ∈ candidates ⟨0, 0, 800, 600⟩ 200 100 800 600 12, c.score ≤ b.score) ∧
      (positionTooltip ⟨0, 0, 800, 600⟩ 200 100 10 800 600).name = b.name ∧
      (10 : ℚ) ≤ (positionTooltip ⟨0, 0, 800, 600⟩ 200 100 10 800 600).left ∧
      (positionTooltip ⟨0, 0, 800, 600⟩ 200 100 10 800 600).left ≤ 800 - 200 - 10 ∧
      (10 : ℚ) ≤ (positionTooltip ⟨0, 0, 800, 600⟩ 200 100 10 800 600).top ∧
      (positionTooltip ⟨0, 0, 800, 600⟩ 200 100 10 800 600).top ≤ 600 - 100 - 10 :=
  ⟨by
      norm_num [candidates, qualifiesB, fitsXB, fitsYB, overlapsB, bottomCandidate,
        topCandidate, rightCandidate, leftCandidate, Rect.right, Rect.bottom],
    by norm_num, by norm_num,
    c3_fallback_amended ⟨0, 0, 800, 600⟩ 200 100 10 800 600
      (by
        norm_num [candidates, qualifiesB, fitsXB, fitsYB, overlapsB, bottomCandidate,
          topCandidate, rightCandidate, leftCandidate, Rect.right, Rect.bottom])
      (by norm_num) (by norm_num)⟩

/-- C4, counterexample: navigating past the end of an active one-step tour
(`goTo(1)` with `currentStep = 0`) does trigger the finish transition
(`onFinish` then `onExit`), but `currentStep` is left at 0, not reset to the
inactive sentinel −1: neither the out-of-bounds `processStep` entry nor
`exit` ever assigns `currentStep`. -/
theorem c4_bounds_counterexample :
    Event.onFinish ∈ (goToModel envAll stActive1 1).2 ∧
    Event.onExit ∈ (goToModel envAll stActive1 1).2 ∧
    (goToModel envAll stActive1 1).1.isActive = false ∧
    (goToModel envAll stActive1 1).1.currentStep ≠ -1 := by decide

/-- C4, amended: for every active tour, `goTo(-1)` and `goTo(stepCount)` both
trigger the finish transition — firing `onFinish` and then performing the
exit teardown — and leave `currentIndex` unchanged at its prior value (it is
not reset to −1). -/
theorem c4_bounds_amended (env : Env) (st : TourState) (h : st.isActive = true) :
    goToModel env st (-1) =
      ({ st with isActive := false },
        [Event.onFinish, Event.containerHidden, Event.bodyClassRemoved,
          Event.scheduleTeardown, Event.onExit]) ∧
    goToModel env st (st.steps.length : ℤ) =
      ({ st with isActive := false },
        [Event.onFinish, Event.containerHidden, Event.bodyClassRemoved,
          Event.scheduleTeardown, Event.onExit]) ∧
    (goToModel env st (-1)).1.currentStep = st.currentStep ∧
    (goToModel env st (st.steps.length : ℤ)).1.currentStep = st.currentStep := by
  have hfin : finishModel st =
      ({ st with isActive := false },
        [Event.onFinish, Event.containerHidden, Event.bodyClassRemoved,
          Event.scheduleTeardown, Event.onExit]) := by
    simp [finishModel, exitModel, h]
  have h1 : goToModel env st (-1) = finishModel st := by
    simp only [goToModel, h, if_true, processStep]
    exact processStepAux_oob env _ st (-1) (Or.inr (by norm_num))
  have h2 : goToModel env st (st.steps.length : ℤ) = finishModel st := by
    simp only [goToModel, h, if_true, processStep]
    exact processStepAux_oob env _ st _ (Or.inl (by simp))
  exact ⟨h1.trans hfin, h2.trans hfin, by rw [h1, hfin], by rw [h2, hfin]⟩

/-- C4, witness: the amended bounds behaviour on a concrete active one-step
tour. -/
theorem c4_bounds_amended_witness :
    stActive1.isActive = true ∧
    goToModel envAll stActive1 (-1) =
      ({ stActive1 with isActive := false },
        [Event.onFinish, Event.containerHidden, Event.bodyClassRemoved,
          Event.scheduleTeardown, Event.onExit]) ∧
    (goToModel envAll stActive1 (stActive1.steps.length : ℤ)).1.currentStep =
      stActive1.currentStep :=
  ⟨rfl, (c4_bounds_amended envAll stActive1 rfl).1,
    (c4_bounds_amended envAll stActive1 rfl).2.2.2⟩

/-- C5: a step whose selector does not resolve (or whose visibility predicate
is false) is skipped without any fault: processing it equals processing the
next index (with `currentStep` moved to the skipped index) with exactly one
`warnSkip` diagnostic inserted after the hide/settle prefix.  Consequently,
on the concrete step list [`selA`, `selM` (missing), `selB`], processing
step 0 and then `next` shows step 0 and then step 2 — never pausing on the
missing step — with exactly one diagnostic, naming index 1 and `selM`. -/
theorem c5_skip_missing :
    (∀ (env : Env) (st : TourState) (i : ℤ),
      st.isActive = true → 0 ≤ i → i < (st.steps.length : ℤ) →
      (st.steps.getD i.toNat default).isWelcome = false →
      resolveFails env (st.steps.getD i.toNat default) = true →
      processStep env st i =
        ((processStep env { st with currentStep := i } (i + 1)).1,
          ([Event.onBeforeStep i, Event.tooltipHidden, Event.highlighterHidden,
              Event.settleWait] ++
            (if st.previousStepClassName = "" then []
              else [Event.classRemoved st.previousStepClassName])) ++
          [Event.warnSkip i (st.steps.getD i.toNat default).selector] ++
          (processStep env { st with currentStep := i } (i + 1)).2)) ∧
    shownSteps ((processStep envSkipM stABM 0).2 ++
      (nextModel envSkipM (processStep envSkipM stABM 0).1).2) = [0, 2] ∧
    skipWarnings ((processStep envSkipM stABM 0).2 ++
      (nextModel envSkipM (processStep envSkipM stABM 0).1).2) = [(1, "selM")] := by
  refine ⟨?_, by decide, by decide⟩
  intro env st i hact h0 hlen hw hr
  have hcond : ¬(st.isActive = false ∨ i < 0 ∨ (st.steps.length : ℤ) ≤ i) := by
    intro hc
    rcases hc with hc | hc | hc
    · rw [hact] at hc
      exact Bool.true_eq_false.mp hc
    · omega
    · omega
  have hfuel : processStepAux env st.steps.length { st with currentStep := i } (i + 1) =
      processStepAux env (st.steps.length + 1) { st with currentStep := i } (i + 1) := by
    apply processStepAux_fuel <;>
      · simp only []
        omega
  simp only [processStep, processStepAux, if_neg hcond, hw, Bool.false_eq_true, if_false,
    hr, if_true, hfuel]

/-- C5, witness: the general skip equation instantiated at index 1 of the
concrete [`selA`, `selM`, `selB`] tour. -/
theorem c5_skip_missing_witness :
    (stABM.isActive = true ∧
      resolveFails envSkipM (stABM.steps.getD (1 : ℤ).toNat default) = true) ∧
    processStep envSkipM stABM 1 =
      ((processStep envSkipM { stABM with currentStep := 1 } (1 + 1)).1,
        ([Event.onBeforeStep 1, Event.tooltipHidden, Event.highlighterHidden,
            Event.settleWait] ++
          (if stABM.previousStepClassName = "" then []
            else [Event.classRemoved stABM.previousStepClassName])) ++
        [Event.warnSkip 1 (stABM.steps.getD (1 : ℤ).toNat default).selector] ++
        (processStep envSkipM { stABM with currentStep := 1 } (1 + 1)).2) :=
  ⟨⟨rfl, rfl⟩,
    c5_skip_missing.1 envSkipM stABM 1 rfl (by norm_num) (by norm_num [stABM])
      (by decide) (by decide)⟩

/-- C6, counterexample: the claim says that once `exit` clears the active
flag at a suspension point, no further visual mutation is performed for that
transition.  Concretely, with `exit()` running during the settle delay of a
transition to a resolving anchored step, the trace still records the content
swap, the position update and the tooltip reveal after `onExit` (the events
following the first `onExit` are computed by `afterExit`). -/
theorem c6_cancellation_counterexample :
    (processStepExitAt envAll SuspPoint.settleDelay stActive1 0).1.isActive = false ∧
    Event.contentSwap 0 ∈ afterExit (processStepExitAt envAll SuspPoint.settleDelay stActive1 0).2 ∧
    Event.positionUpdate 0 ∈ afterExit (processStepExitAt envAll SuspPoint.settleDelay stActive1 0).2 ∧
    Event.tooltipShown 0 ∈ afterExit (processStepExitAt envAll SuspPoint.settleDelay stActive1 0).2 := by
  decide

/-- C6, amended: deactivating at a suspension point (the settle delay or the
scroll-settle wait) of a transition to a resolving anchored step does not
short-circuit the rest of the transition: the content swap, position update
and visibility-flag change all still occur after `onExit` (first conjunct).
The deactivation is detected only inside the scroll-settle polling loop,
whose sole effect is to resolve the wait immediately — with the active flag
cleared the poll reads no sample at all (second conjunct). -/
theorem c6_cancellation_amended :
    (∀ (env : Env) (p : SuspPoint) (st : TourState) (i : ℤ),
      st.isActive = true → 0 ≤ i → i < (st.steps.length : ℤ) →
      (st.steps.getD i.toNat default).isWelcome = false →
      resolveFails env (st.steps.getD i.toNat default) = false →
      (processStepExitAt env p st i).1.isActive = false ∧
      ∃ xs ys, (processStepExitAt env p st i).2 = xs ++ Event.onExit :: ys ∧
        Event.contentSwap i ∈ ys ∧ Event.positionUpdate i ∈ ys ∧
        Event.tooltipShown i ∈ ys) ∧
    (∀ (consecutive : ℕ) (lastPos : ℤ) (samples : List ℤ),
      scrollSettleChecks false consecutive lastPos samples = some 0) := by
  constructor
  · intro env p st i hact h0 hlen hw hr
    simp only [List.getD_eq_getElem?_getD] at hw hr
    have hoob : ¬(i < 0 ∨ (st.steps.length : ℤ) ≤ i) := by omega
    cases p with
    | settleDelay =>
      constructor
      · simp [processStepExitAt, hoob, hw, hr, hact, exitModel,
          showSelectorStepModel]
      · refine ⟨[Event.onBeforeStep i, Event.tooltipHidden, Event.highlighterHidden,
          Event.settleWait, Event.containerHidden, Event.bodyClassRemoved,
          Event.scheduleTeardown],
          (if st.previousStepClassName = "" then []
            else [Event.classRemoved st.previousStepClassName]) ++
          ([Event.scrollIntoView (st.steps.getD i.toNat default).selector, Event.scrollWait,
            Event.overlayHidden, Event.contentSwap i] ++
            (if (st.steps.getD i.toNat default).className = "" then []
              else [Event.classAdded (st.steps.getD i.toNat default).className]) ++
            [Event.positionUpdate i, Event.tooltipShown i]) ++
          [Event.onAfterStep i], ?_, by simp, by simp, by simp⟩
        simp [processStepExitAt, hoob, hw, hr, hact, exitModel,
          showSelectorStepModel]
    | scrollWait =>
      constructor
      · simp [processStepExitAt, hoob, hw, hr, hact, exitModel,
          showSelectorStepWithExit]
      · refine ⟨[Event.onBeforeStep i, Event.tooltipHidden, Event.highlighterHidden,
          Event.settleWait] ++
          (if st.previousStepClassName = "" then []
            else [Event.classRemoved st.previousStepClassName]) ++
          [Event.scrollIntoView (st.steps.getD i.toNat default).selector,
            Event.containerHidden, Event.bodyClassRemoved, Event.scheduleTeardown],
          ([Event.scrollWait, Event.overlayHidden, Event.contentSwap i] ++
            (if (st.steps.getD i.toNat default).className = "" then []
              else [Event.classAdded (st.steps.getD i.toNat default).className]) ++
            [Event.positionUpdate i, Event.tooltipShown i]) ++
          [Event.onAfterStep i], ?_, by simp, by simp, by simp⟩
        simp [processStepExitAt, hoob, hw, hr, hact, exitModel,
          showSelectorStepWithExit]
  · intro consecutive lastPos samples
    cases samples <;> simp [scrollSettleChecks]

/-- C6, witness: the amended behaviour on a concrete one-step tour with the
exit interleaved at the scroll-settle wait, plus a concrete immediate
resolution of the poll with the active flag cleared. -/
theorem c6_cancellation_amended_witness :
    (stActive1.isActive = true ∧
      resolveFails envAll (stActive1.steps.getD (0 : ℤ).toNat default) = false) ∧
    ((processStepExitAt envAll SuspPoint.scrollWait stActive1 0).1.isActive = false ∧
      ∃ xs ys, (processStepExitAt envAll SuspPoint.scrollWait stActive1 0).2 =
          xs ++ Event.onExit :: ys ∧
        Event.contentSwap 0 ∈ ys ∧ Event.positionUpdate 0 ∈ ys ∧
        Event.tooltipShown 0 ∈ ys) ∧
    scrollSettleChecks false 0 0 [5, 3] = some 0 :=
  ⟨⟨rfl, rfl⟩,
    c6_cancellation_amended.1 envAll SuspPoint.scrollWait stActive1 0 rfl (by norm_num)
      (by norm_num [stActive1]) (by decide) (by decide),
    c6_cancellation_amended.2 0 0 [5, 3]⟩

/-- C7: the claim says no internally scheduled handler may fault, in
particular the debounced scroll handler with current step index −1.  The code
violates this: while the tour is active but `currentStep` is still the
inactive sentinel −1 (reachable because the scroll listener is bound before
the first `processStep` assigns `currentStep`, which happens only after the
`onBeforeStep` await and the settle delay), the handler body evaluates
`this.steps[-1].isWelcome`, a property read on `undefined`, i.e. an uncaught
`TypeError`. -/
theorem c7_scroll_handler_fault :
    stPreFirst.isActive = true ∧
    scrollHandlerFire stPreFirst = Except.error JsFault.typeError :=
  ⟨rfl, rfl⟩

/-- C8: `exit` is idempotent — after one `exit` call, a second call leaves
the state unchanged and performs nothing: no teardown, no scheduled removal,
no `onExit` callback. -/
theorem c8_exit_idempotent (st : TourState) :
    exitModel (exitModel st).1 = ((exitModel st).1, []) := by
  by_cases h : st.isActive <;> simp [exitModel, h]

/-- C9: calling `start` while the tour is already active, and calling
`setTheme` before the tour has started (no container yet), each emit one
diagnostic and leave the whole tour state unchanged. -/
theorem c9_misuse_ignored :
    (∀ (env : Env) (st : TourState), st.isActive = true →
      startModel env st = (st, [Event.warnAlreadyRunning])) ∧
    (∀ (st : TourState) (themeName : String), st.hasContainer = false →
      setThemeModel st themeName = (st, [Event.warnThemeBeforeStart])) := by
  constructor
  · intro env st h
    simp [startModel, h]
  · intro st themeName h
    simp [setThemeModel, h]

/-- C9, witness: a concrete active tour ignores `start`, and a concrete
never-started tour ignores `setTheme`. -/
theorem c9_misuse_ignored_witness :
    (stActive1.isActive = true ∧ stInactive.hasContainer = false) ∧
    startModel envAll stActive1 = (stActive1, [Event.warnAlreadyRunning]) ∧
    setThemeModel stInactive "light" = (stInactive, [Event.warnThemeBeforeStart]) :=
  ⟨⟨rfl, rfl⟩, c9_misuse_ignored.1 envAll stActive1 rfl,
    c9_misuse_ignored.2 stInactive "light" rfl⟩

/-- C10: for every target region, panel size, surface bounds, gap and
safe-area padding — including panels too large for the safe area, where the
two-sided clamp interval is empty — the returned coordinates satisfy
left ≥ safe and top ≥ safe, because the lower clamp bound (`Math.max`) is
applied outside the upper one (`Math.min`) and therefore dominates. -/
theorem c10_clamp_lower_bound (r : Rect) (tw th safe vpW vpH gap : ℚ) :
    safe ≤ (positionTooltipGen r tw th safe vpW vpH gap).left ∧
    safe ≤ (positionTooltipGen r tw th safe vpW vpH gap).top := by
  constructor <;>
    · simp only [positionTooltipGen]
      exact le_max_left _ _

end CodingIntroJS
